import Mathlib

/-!
A formal model of the klack key-sound program (`src/main.py`).

The Python module is embedded shallowly: each effectful routine becomes a
pure Lean function over an explicit state.

* Timestamps (`time.time()`, `st_mtime`) are modelled as exact numbers
  (`ℚ` for event times, `ℕ` for file modification times); audio byte
  content is abstracted to a code in `ℕ`.
* The process environment is a function `String → Option String`.
* Filesystem interaction of the transcoder is captured by a `CacheState`
  recording the source file's mtime/content and the optional cache file.
* Exceptions are modelled with `Option`/`Except`; a Python routine that
  catches all exceptions becomes a total Lean function.
* A directory is a finite list of entries; the outcome of the external
  decoders (pydub, pygame) on each file is carried by per-entry flags
  (`decodeOk`: `_ensure_processed_wav` would succeed on it;
  `loadOk`: `pygame.mixer.Sound` would succeed on its cached WAV).
-/

namespace Klack

/-! ## Configuration constants (src/main.py, module level) -/

/-- Source constant `GAIN_DB = 0.0`: optional gain adjustment in dB for all
sounds. A module-level constant in the source, not read from anywhere. -/
def GAIN_DB : ℚ := 0

/-- Source constant `IGNORE_KEY_REPEAT = False`: if true, ignore
auto-repeated keypresses. A module-level constant in the source. -/
def IGNORE_KEY_REPEAT : Bool := false

/-- Source constant `TARGET_SAMPLE_RATE = 44100`. -/
def TARGET_SAMPLE_RATE : ℕ := 44100

/-- Source constant `TARGET_CHANNELS = 1`. -/
def TARGET_CHANNELS : ℕ := 1

/-- Source constant `TARGET_SAMPLE_WIDTH = 2`. -/
def TARGET_SAMPLE_WIDTH : ℕ := 2

/-- The process environment: maps a variable name to its value when set
(`os.getenv`). -/
def Env : Type := String → Option String

/-- Python `str.strip()`: removes leading and trailing whitespace. -/
def pyStrip (s : String) : String :=
  String.mk (((s.toList.dropWhile Char.isWhitespace).reverse.dropWhile
    Char.isWhitespace).reverse)

/-- Python `int(s)` on the plain decimal digit strings it is applied to here. -/
def strToNat (s : String) : ℕ :=
  s.toList.foldl (fun acc c => acc * 10 + (c.toNat - 48)) 0

/-- Source `_get_mixer_channels`: reads `KLACK_CHANNELS` (default `"2"`), strips
whitespace (`val` in the source, inlined here), parses it when it is
exactly `"1"` or `"2"`, and falls back to the default `2` otherwise. -/
def _get_mixer_channels (env : Env) : ℕ :=
  if pyStrip ((env "KLACK_CHANNELS").getD "2") = "1"
      ∨ pyStrip ((env "KLACK_CHANNELS").getD "2") = "2"
  then strToNat (pyStrip ((env "KLACK_CHANNELS").getD "2"))
  else 2

/-- Source `_debug_enabled`: reads `KLACK_DEBUG_AUDIO` (default `"0"`), strips
whitespace and tests membership in the truthy set. -/
def _debug_enabled (env : Env) : Bool :=
  let val := pyStrip ((env "KLACK_DEBUG_AUDIO").getD "0")
  ["1", "true", "yes", "on"].contains val

/-- The program's effective configuration as a function of the process
environment. `mixerChannels` and `debugEnabled` come from environment
variables; `gainDb` and `ignoreKeyRepeat` are the module-level source
constants `GAIN_DB` and `IGNORE_KEY_REPEAT`, which no environment variable
feeds into. -/
structure Config where
  mixerChannels : ℕ
  debugEnabled : Bool
  gainDb : ℚ
  ignoreKeyRepeat : Bool
deriving DecidableEq

/-- Assembles the configuration the running program observes from a given
environment, mirroring where each value comes from in the source. -/
def configOfEnv (env : Env) : Config :=
  { mixerChannels := _get_mixer_channels env
    debugEnabled := _debug_enabled env
    gainDb := GAIN_DB
    ignoreKeyRepeat := IGNORE_KEY_REPEAT }

/-! ## Audio transcoder (`_ensure_processed_wav`) -/

/-- Filesystem state around one (source file, cache destination) pair:
the source's modification time and (abstract) content, and the cache file
as `none` (absent) or `some (mtime, content)`. -/
structure CacheState where
  srcMtime : ℕ
  srcContent : ℕ
  dst : Option (ℕ × ℕ)
deriving DecidableEq

/-- Observable outcome of one `_ensure_processed_wav` call: the returned
value (`some ()` for `dst`, `none` for the `except` branch), the
filesystem state afterwards, whether the decoder was invoked, and whether
the cache file was (re)written. -/
structure EnsureResult where
  result : Option Unit
  state : CacheState
  decoded : Bool
  wrote : Bool
deriving DecidableEq

/-- The decode / gain / resample / export block of `_ensure_processed_wav`.
`transform` abstracts the whole pydub pipeline on the source content:
`some pcm` is the produced PCM content, `none` a decode or write failure
(either raises in Python and lands in the `except` branch, which logs and
returns `None` with the cache file unchanged). A successful export stamps
the cache file with the current time `now`. -/
def _transcode_write (transform : ℕ → Option ℕ) (now : ℕ) (st : CacheState) : EnsureResult :=
  match transform st.srcContent with
  | some pcm => ⟨some (), { st with dst := some (now, pcm) }, true, true⟩
  | none => ⟨none, st, true, false⟩

/-- Source `_ensure_processed_wav src dst`: if the cache file exists and its
mtime is `≥` the source's mtime, return it untouched (fast path);
otherwise decode, transform and export, returning `None` on failure. -/
def _ensure_processed_wav (transform : ℕ → Option ℕ) (now : ℕ) (st : CacheState) : EnsureResult :=
  match st.dst with
  | some md =>
    if st.srcMtime ≤ md.1 then ⟨some (), st, false, false⟩
    else _transcode_write transform now st
  | none => _transcode_write transform now st

/-! ## Clip pool (`SoundPool._prepare_clips`, `SoundPool.__init__`) -/

/-- One directory entry as seen by `src_dir.iterdir()`: its file name,
whether it is a regular file, and the outcomes of the two external
decoding stages on it (`decodeOk`: `_ensure_processed_wav` returns a path;
`loadOk`: `pygame.mixer.Sound` accepts the cached WAV). -/
structure DirEntry where
  name : String
  isFile : Bool
  decodeOk : Bool
  loadOk : Bool
deriving DecidableEq

/-- A source directory: its path, whether it exists, and its entries in
arbitrary (filesystem iteration) order. -/
structure Dir where
  path : String
  dirExists : Bool
  entries : List DirEntry
deriving DecidableEq

/-- Index of the last `'.'` in a character list, when present. -/
def lastDotIdx : List Char → Option ℕ
  | [] => none
  | c :: cs =>
    match lastDotIdx cs with
    | some i => some (i + 1)
    | none => if c = '.' then some 0 else none

/-- Python `pathlib.PurePath.suffix`: the extension from the last dot on, empty
unless that dot sits strictly inside the name (`0 < i < len - 1`). -/
def pathSuffix (name : String) : String :=
  let cs := name.toList
  match lastDotIdx cs with
  | some i => if 0 < i ∧ i + 1 < cs.length then String.mk (cs.drop i) else ""
  | none => ""

/-- Python `pathlib.PurePath.stem`: the name with `pathSuffix` removed. -/
def pathStem (name : String) : String :=
  let cs := name.toList
  match lastDotIdx cs with
  | some i => if 0 < i ∧ i + 1 < cs.length then String.mk (cs.take i) else name
  | none => name

/-- Python `str.lower` on the ASCII extensions involved here. -/
def lowerStr (s : String) : String := String.mk (s.toList.map Char.toLower)

/-- The `supported_ext` set in `_prepare_clips`. -/
def SUPPORTED_EXT : List String := [".mp3", ".wav", ".ogg", ".flac", ".m4a", ".aac"]

/-- A loaded clip (`Clip(sound=...)`): the pygame sound handle is
identified by the WAV path it was constructed from. -/
structure Clip where
  sound : String
deriving DecidableEq

/-- The order `sorted(src_dir.iterdir())` uses: within one directory,
paths compare by file name, lexicographically by code point (stated on
the character lists of the names). -/
def nameLe (a b : DirEntry) : Prop := a.name.toList ≤ b.name.toList

instance : DecidableRel nameLe :=
  fun a b => inferInstanceAs (Decidable (a.name.toList ≤ b.name.toList))

instance : IsTotal DirEntry nameLe := ⟨fun a b => le_total a.name.toList b.name.toList⟩

instance : IsTrans DirEntry nameLe := ⟨fun _ _ _ hab hbc => le_trans hab hbc⟩

/-- An entry that contributes a clip to the pool: a regular file with a
supported extension on which both decoding stages succeed. -/
def validEntry (e : DirEntry) : Bool :=
  e.isFile && SUPPORTED_EXT.contains (lowerStr (pathSuffix e.name)) && e.decodeOk && e.loadOk

/-- The clip built for entry `e`: `pygame.mixer.Sound(str(wav))` where
`wav = out_dir / (entry.stem + ".wav")`. -/
def clipOf (outPath : String) (e : DirEntry) : Clip :=
  ⟨outPath ++ "/" ++ pathStem e.name ++ ".wav"⟩

/-- One iteration of the `_prepare_clips` loop on entry `e`: skip
non-files and unsupported extensions, skip entries the transcoder fails
on, log and skip entries `pygame.mixer.Sound` rejects, otherwise append
the clip. -/
def processEntry (outPath : String) (e : DirEntry) : Option Clip :=
  if e.isFile && SUPPORTED_EXT.contains (lowerStr (pathSuffix e.name)) then
    if e.decodeOk then
      if e.loadOk then some (clipOf outPath e) else none
    else none
  else none

/-- Source `SoundPool._prepare_clips src_dir out_dir`: empty when the source
directory is missing, otherwise the loop over `sorted(src_dir.iterdir())`
collecting the successfully prepared clips. -/
def _prepare_clips (src : Dir) (outPath : String) : List Clip :=
  if src.dirExists = false then []
  else (List.insertionSort nameLe src.entries).filterMap (processEntry outPath)

/-- The two category pools held by a constructed `SoundPool`. -/
structure SoundPool where
  keydown_clips : List Clip
  keyup_clips : List Clip
deriving DecidableEq

/-- Source `SoundPool.__init__`: prepares both categories, then raises
`FileNotFoundError` (modelled as `Except.error`) if either list of clips
is empty. -/
def SoundPool.init (keydown_dir keyup_dir : Dir) (proc_keydown proc_keyup : String) :
    Except String SoundPool :=
  let kd := _prepare_clips keydown_dir proc_keydown
  let ku := _prepare_clips keyup_dir proc_keyup
  if kd = [] then Except.error ("No playable sound files found in " ++ keydown_dir.path)
  else if ku = [] then Except.error ("No playable sound files found in " ++ keyup_dir.path)
  else Except.ok ⟨kd, ku⟩

/-! ## Playback trigger (`SoundPool._play_clip`) -/

/-- Backend call `clip.sound.play()`: the backend call, which may raise. -/
def sound_play (backendFails : Bool) : Except String Unit :=
  if backendFails then Except.error "pygame.mixer playback failed" else Except.ok ()

/-- Source `SoundPool._play_clip`: calls the backend inside `try/except`; a
backend error is logged and swallowed. The outcome is the pair
(playback started, error was logged); the function is total, so no
exception reaches the caller. -/
def _play_clip (backendFails : Bool) : Bool × Bool :=
  match sound_play backendFails with
  | Except.ok _ => (true, false)
  | Except.error _ => (false, true)

/-- A sequence of independent trigger calls, each with its own backend
outcome, processed in order. -/
def runTriggers : List Bool → List (Bool × Bool)
  | [] => []
  | f :: fs => _play_clip f :: runTriggers fs

/-! ## Mute gate and event handlers -/

/-- The mutable module state touched by the event path: the
`_sound_enabled_flag` guarded by `_state_lock`, and the two debounce
dictionaries `_last_press` / `_last_release` (key identity string to
last accepted event time). -/
structure SysState where
  enabled : Bool
  lastPress : List (String × ℚ)
  lastRelease : List (String × ℚ)
deriving DecidableEq

/-- Source `sound_enabled()`: reads the flag under the lock. -/
def sound_enabled (st : SysState) : Bool := st.enabled

/-- Source `set_sound_enabled(val)`: writes the flag under the lock. -/
def set_sound_enabled (st : SysState) (v : Bool) : SysState := { st with enabled := v }

/-- Python `dict.get(k, 0)` on the debounce dictionary. -/
def dictGet : List (String × ℚ) → String → ℚ
  | [], _ => 0
  | p :: rest, k => if p.1 = k then p.2 else dictGet rest k

/-- Python `d[k] = v` on the debounce dictionary. -/
def dictSet : List (String × ℚ) → String → ℚ → List (String × ℚ)
  | [], k, v => [(k, v)]
  | p :: rest, k, v => if p.1 = k then (k, v) :: rest else p :: dictSet rest k v

/-- The fixed `0.005` second debounce threshold in `on_press` /
`on_release` (exact rational in this model). -/
def MIN_INTERVAL : ℚ := 5 / 1000

/-- Source `SoundPool.on_press`: returns the state afterwards and whether a
playback thread was dispatched. Mirrors the source order: the mute gate
first (`if not sound_enabled(): return`), then, when `ignoreKeyRepeat`
is set, the debounce check against `_last_press`, then the dispatch.
`key` is the computed key identity string. -/
def on_press (ignoreKeyRepeat : Bool) (st : SysState) (key : String) (now : ℚ) :
    SysState × Bool :=
  if sound_enabled st = false then (st, false)
  else if ignoreKeyRepeat then
    if now - dictGet st.lastPress key < MIN_INTERVAL then (st, false)
    else ({ st with lastPress := dictSet st.lastPress key now }, true)
  else (st, true)

/-- Source `SoundPool.on_release`: same shape as `on_press` over `_last_release`. -/
def on_release (ignoreKeyRepeat : Bool) (st : SysState) (key : String) (now : ℚ) :
    SysState × Bool :=
  if sound_enabled st = false then (st, false)
  else if ignoreKeyRepeat then
    if now - dictGet st.lastRelease key < MIN_INTERVAL then (st, false)
    else ({ st with lastRelease := dictSet st.lastRelease key now }, true)
  else (st, true)

/-! ## Helper lemmas -/

theorem dictGet_dictSet_self (m : List (String × ℚ)) (k : String) (v : ℚ) :
    dictGet (dictSet m k v) k = v := by
  induction m with
  | nil => simp [dictGet, dictSet]
  | cons p rest ih =>
    by_cases h : p.1 = k <;> simp [dictGet, dictSet, h, ih]

theorem runTriggers_append (a b : List Bool) :
    runTriggers (a ++ b) = runTriggers a ++ runTriggers b := by
  induction a with
  | nil => rfl
  | cons f fs ih => simp [runTriggers, ih]

theorem runTriggers_length (a : List Bool) : (runTriggers a).length = a.length := by
  induction a with
  | nil => rfl
  | cons f fs ih => simp [runTriggers, ih]

/-- Two sorted entry lists that are permutations of each other and whose
file names are pairwise distinct coincide. -/
theorem sorted_perm_nodup_names_eq {l₁ l₂ : List DirEntry} (hp : l₁.Perm l₂)
    (hs₁ : l₁.Sorted nameLe) (hs₂ : l₂.Sorted nameLe)
    (hnd : (l₁.map DirEntry.name).Nodup) : l₁ = l₂ := by
  induction l₁ generalizing l₂ with
  | nil => exact hp.nil_eq
  | cons a t ih =>
    cases l₂ with
    | nil => exact absurd hp.eq_nil (by simp)
    | cons b t₂ =>
      have hnd' : (∀ x ∈ t, ¬x.name = a.name) ∧ (t.map DirEntry.name).Nodup := by
        simpa using hnd
      have hab : a = b := by
        by_cases h : a = b
        · exact h
        · exfalso
          have hbmem : b ∈ a :: t := hp.mem_iff.mpr (List.mem_cons_self b t₂)
          have hamem : a ∈ b :: t₂ := hp.mem_iff.mp (List.mem_cons_self a t)
          have hbt : b ∈ t := by
            rcases List.mem_cons.mp hbmem with h' | h'
            · exact absurd h'.symm h
            · exact h'
          have hat : a ∈ t₂ := by
            rcases List.mem_cons.mp hamem with h' | h'
            · exact absurd h' h
            · exact h'
          have h₁ : a.name.toList ≤ b.name.toList := List.rel_of_sorted_cons hs₁ b hbt
          have h₂ : b.name.toList ≤ a.name.toList := List.rel_of_sorted_cons hs₂ a hat
          have hname : a.name = b.name := String.toList_inj.mp (le_antisymm h₁ h₂)
          exact hnd'.1 b hbt (hname.symm)
      subst hab
      have htail : t = t₂ := ih hp.cons_inv hs₁.of_cons hs₂.of_cons hnd'.2
      rw [htail]

theorem nodup_names_perm {l₁ l₂ : List DirEntry} (hp : l₁.Perm l₂)
    (hnd : (l₁.map DirEntry.name).Nodup) : (l₂.map DirEntry.name).Nodup :=
  ((hp.map DirEntry.name).nodup_iff).mp hnd

theorem nodup_names_sublist {l₁ l₂ : List DirEntry} (h : l₁.Sublist l₂)
    (hnd : (l₂.map DirEntry.name).Nodup) : (l₁.map DirEntry.name).Nodup :=
  hnd.sublist (h.map DirEntry.name)

/-- Filtering after sorting is the same as sorting the filtered list, as
long as the file names are pairwise distinct. -/
theorem filter_insertionSort_of_nodup (p : DirEntry → Bool) (l : List DirEntry)
    (hnd : (l.map DirEntry.name).Nodup) :
    (List.insertionSort nameLe l).filter p = List.insertionSort nameLe (l.filter p) := by
  refine sorted_perm_nodup_names_eq ?_ ?_ ?_ ?_
  · exact ((List.perm_insertionSort nameLe l).filter p).trans
      (List.perm_insertionSort nameLe (l.filter p)).symm
  · exact List.Pairwise.filter p (List.sorted_insertionSort nameLe l)
  · exact List.sorted_insertionSort nameLe (l.filter p)
  · exact nodup_names_sublist (List.filter_sublist _)
      (nodup_names_perm (List.perm_insertionSort nameLe l).symm hnd)

theorem filterMap_if_eq_map_filter {α β : Type} (p : α → Bool) (g : α → β) :
    ∀ l : List α, l.filterMap (fun e => if p e then some (g e) else none) = (l.filter p).map g
  | [] => rfl
  | a :: t => by
    by_cases h : p a <;>
      simp [List.filterMap_cons, List.filter_cons, h, filterMap_if_eq_map_filter p g t]

/-- The loop body succeeds exactly on `validEntry` entries. -/
theorem processEntry_eq (outPath : String) (e : DirEntry) :
    processEntry outPath e = if validEntry e then some (clipOf outPath e) else none := by
  unfold processEntry validEntry
  cases hf : e.isFile <;> cases hd : e.decodeOk <;> cases hl : e.loadOk <;>
    cases hs : SUPPORTED_EXT.contains (lowerStr (pathSuffix e.name)) <;> simp [hf, hd, hl, hs]

/-- Normal form of `_prepare_clips` on an existing directory with
pairwise-distinct file names: the valid entries, sorted by name, each
mapped to its clip. -/
theorem prepare_clips_normal (dirPath outPath : String) (entries : List DirEntry)
    (hnd : (entries.map DirEntry.name).Nodup) :
    _prepare_clips ⟨dirPath, true, entries⟩ outPath
      = (List.insertionSort nameLe (entries.filter validEntry)).map (clipOf outPath) := by
  have h1 : processEntry outPath
      = fun e => if validEntry e then some (clipOf outPath e) else none :=
    funext (processEntry_eq outPath)
  unfold _prepare_clips
  rw [if_neg (by simp)]
  rw [h1, filterMap_if_eq_map_filter, filter_insertionSort_of_nodup _ _ hnd]

/-! ## Claim theorems -/

/-- C1: when the cache file already exists with modification time at least
the source's, `_ensure_processed_wav` returns it without invoking the
decoder and without writing; consequently, after one successful call made
at a time not before the source's mtime, a second call writes nothing,
leaves the cache file (hence its PCM content) exactly as the first call
left it, and still returns the cache path. -/
theorem ensure_processed_wav_fresh_and_idempotent
    (transform : ℕ → Option ℕ) (t₁ t₂ : ℕ) (st : CacheState) :
    (∀ m c, st.dst = some (m, c) → st.srcMtime ≤ m →
      _ensure_processed_wav transform t₁ st = ⟨some (), st, false, false⟩)
    ∧ (st.srcMtime ≤ t₁ →
      ((_ensure_processed_wav transform t₁ st).result).isSome = true →
      (_ensure_processed_wav transform t₂
            ((_ensure_processed_wav transform t₁ st).state)).wrote = false
        ∧ (_ensure_processed_wav transform t₂
            ((_ensure_processed_wav transform t₁ st).state)).state
          = (_ensure_processed_wav transform t₁ st).state
        ∧ (_ensure_processed_wav transform t₂
            ((_ensure_processed_wav transform t₁ st).state)).result = some ()) := by
  constructor
  · intro m c hdst hfresh
    unfold _ensure_processed_wav
    rw [hdst]
    simp [hfresh]
  · intro ht hres
    rcases hdst : st.dst with _ | ⟨m, c⟩
    · rcases htr : transform st.srcContent with _ | pcm
      · exfalso
        unfold _ensure_processed_wav _transcode_write at hres
        rw [hdst, htr] at hres
        simp at hres
      · unfold _ensure_processed_wav _transcode_write
        rw [hdst, htr]
        simp [ht]
    · by_cases hfresh : st.srcMtime ≤ m
      · unfold _ensure_processed_wav
        rw [hdst]
        simp [hfresh, hdst]
      · rcases htr : transform st.srcContent with _ | pcm
        · exfalso
          unfold _ensure_processed_wav _transcode_write at hres
          rw [hdst, htr] at hres
          simp [hfresh] at hres
        · unfold _ensure_processed_wav _transcode_write
          rw [hdst, htr]
          simp [hfresh, ht]

/-- Concrete instance of the cache theorem: a fresh cache file (mtime 5,
source mtime 1) is returned untouched, and a cold cache processed at
time 2 and again at time 3 is not rewritten the second time. -/
theorem ensure_processed_wav_fresh_and_idempotent_witness :
    _ensure_processed_wav (fun n => some (n + 1)) 2 ⟨1, 7, some (5, 9)⟩
        = ⟨some (), ⟨1, 7, some (5, 9)⟩, false, false⟩
    ∧ ((_ensure_processed_wav (fun n => some (n + 1)) 3
          ((_ensure_processed_wav (fun n => some (n + 1)) 2 ⟨1, 7, none⟩).state)).wrote = false
        ∧ (_ensure_processed_wav (fun n => some (n + 1)) 3
            ((_ensure_processed_wav (fun n => some (n + 1)) 2 ⟨1, 7, none⟩).state)).state
          = (_ensure_processed_wav (fun n => some (n + 1)) 2 ⟨1, 7, none⟩).state
        ∧ (_ensure_processed_wav (fun n => some (n + 1)) 3
            ((_ensure_processed_wav (fun n => some (n + 1)) 2 ⟨1, 7, none⟩).state)).result
          = some ()) :=
  ⟨(ensure_processed_wav_fresh_and_idempotent (fun n => some (n + 1)) 2 3
      ⟨1, 7, some (5, 9)⟩).1 5 9 rfl (by decide),
    (ensure_processed_wav_fresh_and_idempotent (fun n => some (n + 1)) 2 3
      ⟨1, 7, none⟩).2 (by decide) rfl⟩

/-- C2: a category directory yielding zero successfully loaded clips makes
`SoundPool.__init__` raise (`FileNotFoundError`), and a successfully
constructed pool never has an empty category. -/
theorem sound_pool_init_empty_category_fatal (kd ku : Dir) (pkd pku : String) :
    ((_prepare_clips kd pkd = [] ∨ _prepare_clips ku pku = []) →
      ∃ msg, SoundPool.init kd ku pkd pku = Except.error msg)
    ∧ (∀ p, SoundPool.init kd ku pkd pku = Except.ok p →
      p.keydown_clips ≠ [] ∧ p.keyup_clips ≠ []) := by
  constructor
  · intro h
    unfold SoundPool.init
    by_cases h1 : _prepare_clips kd pkd = []
    · exact ⟨_, by rw [if_pos h1]⟩
    · have h2 : _prepare_clips ku pku = [] := h.resolve_left h1
      exact ⟨_, by rw [if_neg h1, if_pos h2]⟩
  · intro p hp
    unfold SoundPool.init at hp
    by_cases h1 : _prepare_clips kd pkd = []
    · rw [if_pos h1] at hp
      exact absurd hp (by simp)
    · by_cases h2 : _prepare_clips ku pku = []
      · rw [if_neg h1, if_pos h2] at hp
        exact absurd hp (by simp)
      · rw [if_neg h1, if_neg h2] at hp
        have hp' : (⟨_prepare_clips kd pkd, _prepare_clips ku pku⟩ : SoundPool) = p := by
          exact Except.ok.inj hp
        rw [← hp']
        exact ⟨h1, h2⟩

/-- Concrete instances for the empty-category theorem: missing source
directories give an initialization error; one valid file per category
gives a pool with both categories non-empty. -/
theorem sound_pool_init_empty_category_fatal_witness :
    (∃ msg, SoundPool.init ⟨"kd", false, []⟩ ⟨"ku", false, []⟩ "pd" "pu" = Except.error msg)
    ∧ ((⟨[⟨"pd/a.wav"⟩], [⟨"pu/b.wav"⟩]⟩ : SoundPool).keydown_clips ≠ []
        ∧ (⟨[⟨"pd/a.wav"⟩], [⟨"pu/b.wav"⟩]⟩ : SoundPool).keyup_clips ≠ []) :=
  ⟨(sound_pool_init_empty_category_fatal ⟨"kd", false, []⟩ ⟨"ku", false, []⟩ "pd" "pu").1
      (Or.inl rfl),
    (sound_pool_init_empty_category_fatal ⟨"kd", true, [⟨"a.mp3", true, true, true⟩]⟩
        ⟨"ku", true, [⟨"b.ogg", true, true, true⟩]⟩ "pd" "pu").2
      ⟨[⟨"pd/a.wav"⟩], [⟨"pu/b.wav"⟩]⟩ rfl⟩

/-- C6: a backend playback failure inside `_play_clip` is logged and
swallowed (the call still returns, with no playback and the error
logged), and within any sequence of trigger calls one failing dispatch
leaves every other dispatch, earlier or later, unchanged. -/
theorem play_clip_swallows_backend_errors (pre post : List Bool) :
    _play_clip true = (false, true)
    ∧ runTriggers (pre ++ true :: post)
        = runTriggers pre ++ _play_clip true :: runTriggers post
    ∧ (runTriggers (pre ++ true :: post)).take pre.length = runTriggers pre
    ∧ (runTriggers (pre ++ true :: post)).drop (pre.length + 1) = runTriggers post := by
  have hmain : runTriggers (pre ++ true :: post)
      = runTriggers pre ++ _play_clip true :: runTriggers post := by
    rw [runTriggers_append]; rfl
  refine ⟨rfl, hmain, ?_, ?_⟩
  · rw [hmain, List.take_left' (runTriggers_length pre)]
  · have h2 : runTriggers pre ++ _play_clip true :: runTriggers post
        = (runTriggers pre ++ [_play_clip true]) ++ runTriggers post := by
      simp
    rw [hmain, h2, List.drop_left']
    simp [runTriggers_length]

/-- C10: `_get_mixer_channels` always lands in the set allowed by the
mixer setup: the parsed value for a stripped `"1"` or `"2"`, and the
default `2` for everything else, including an unset variable. -/
theorem get_mixer_channels_in_range (env : Env) :
    (_get_mixer_channels env = 1 ∨ _get_mixer_channels env = 2)
    ∧ (∀ s, env "KLACK_CHANNELS" = some s → pyStrip s = "1" → _get_mixer_channels env = 1)
    ∧ (∀ s, env "KLACK_CHANNELS" = some s → pyStrip s = "2" → _get_mixer_channels env = 2)
    ∧ (∀ s, env "KLACK_CHANNELS" = some s → pyStrip s ≠ "1" → pyStrip s ≠ "2" →
        _get_mixer_channels env = 2)
    ∧ (env "KLACK_CHANNELS" = none → _get_mixer_channels env = 2) := by
  refine ⟨?_, ?_, ?_, ?_, ?_⟩
  · by_cases h1 : pyStrip ((env "KLACK_CHANNELS").getD "2") = "1"
    · left
      unfold _get_mixer_channels
      rw [if_pos (Or.inl h1), h1]
      decide
    · by_cases h2 : pyStrip ((env "KLACK_CHANNELS").getD "2") = "2"
      · right
        unfold _get_mixer_channels
        rw [if_pos (Or.inr h2), h2]
        decide
      · right
        unfold _get_mixer_channels
        rw [if_neg (not_or.mpr ⟨h1, h2⟩)]
  · intro s hs h1
    unfold _get_mixer_channels
    rw [hs]
    show (if pyStrip s = "1" ∨ pyStrip s = "2" then strToNat (pyStrip s) else 2) = 1
    rw [h1]
    decide
  · intro s hs h2
    unfold _get_mixer_channels
    rw [hs]
    show (if pyStrip s = "1" ∨ pyStrip s = "2" then strToNat (pyStrip s) else 2) = 2
    rw [h2]
    decide
  · intro s hs h1 h2
    unfold _get_mixer_channels
    rw [hs]
    show (if pyStrip s = "1" ∨ pyStrip s = "2" then strToNat (pyStrip s) else 2) = 2
    rw [if_neg (not_or.mpr ⟨h1, h2⟩)]
  · intro h
    unfold _get_mixer_channels
    rw [h]
    decide

/-- Concrete instances for the mixer-channel theorem: `" 1 "` parses to
`1`, `"stereo"` falls back to `2`, and an unset variable gives `2`. -/
theorem get_mixer_channels_in_range_witness :
    _get_mixer_channels (fun _ => some " 1 ") = 1
    ∧ _get_mixer_channels (fun _ => some "stereo") = 2
    ∧ _get_mixer_channels (fun _ => none) = 2 :=
  ⟨(get_mixer_channels_in_range (fun _ => some " 1 ")).2.1 " 1 " rfl (by decide),
    (get_mixer_channels_in_range (fun _ => some "stereo")).2.2.2.1 "stereo" rfl
      (by decide) (by decide),
    (get_mixer_channels_in_range (fun _ => none)).2.2.2.2 rfl⟩

/-- C5: on an existing category directory with pairwise-distinct file
names, `_prepare_clips` returns exactly one clip per valid entry (regular
file, supported extension, both decoding stages succeed), in
lexicographic file-name order, independently of the filesystem iteration
order; with at least one valid file the resulting pool is non-empty. -/
theorem prepare_clips_count_order_deterministic
    (dirPath outPath : String) (entries entries2 : List DirEntry)
    (hnd : (entries.map DirEntry.name).Nodup)
    (hvalid : 1 ≤ entries.countP validEntry) :
    (_prepare_clips ⟨dirPath, true, entries⟩ outPath).length = entries.countP validEntry
    ∧ _prepare_clips ⟨dirPath, true, entries⟩ outPath
        = (List.insertionSort nameLe (entries.filter validEntry)).map (clipOf outPath)
    ∧ (entries2.Perm entries →
        _prepare_clips ⟨dirPath, true, entries2⟩ outPath
          = _prepare_clips ⟨dirPath, true, entries⟩ outPath)
    ∧ 1 ≤ (_prepare_clips ⟨dirPath, true, entries⟩ outPath).length := by
  have hnf := prepare_clips_normal dirPath outPath entries hnd
  have hlen : (_prepare_clips ⟨dirPath, true, entries⟩ outPath).length
      = entries.countP validEntry := by
    rw [hnf, List.length_map, List.length_insertionSort, List.countP_eq_length_filter]
  refine ⟨hlen, hnf, ?_, ?_⟩
  · intro hperm
    have hnd2 : (entries2.map DirEntry.name).Nodup := nodup_names_perm hperm.symm hnd
    rw [prepare_clips_normal dirPath outPath entries2 hnd2, hnf]
    congr 1
    apply sorted_perm_nodup_names_eq
    · exact (List.perm_insertionSort nameLe _).trans
        ((hperm.filter validEntry).trans (List.perm_insertionSort nameLe _).symm)
    · exact List.sorted_insertionSort nameLe _
    · exact List.sorted_insertionSort nameLe _
    · exact nodup_names_perm (List.perm_insertionSort nameLe _).symm
        (nodup_names_sublist (List.filter_sublist _) hnd2)
  · rw [hlen]
    exact hvalid

/-- Concrete instance: a directory listed as `b.wav, a.mp3, sub` (with
`sub` not a regular file) yields two clips, and listing the same entries
in another order yields the same pool. -/
theorem prepare_clips_count_order_deterministic_witness :
    (_prepare_clips ⟨"s", true, [⟨"b.wav", true, true, true⟩, ⟨"a.mp3", true, true, true⟩,
        ⟨"sub", false, true, true⟩]⟩ "o").length
      = List.countP validEntry [⟨"b.wav", true, true, true⟩, ⟨"a.mp3", true, true, true⟩,
          ⟨"sub", false, true, true⟩]
    ∧ _prepare_clips ⟨"s", true, [⟨"a.mp3", true, true, true⟩, ⟨"sub", false, true, true⟩,
          ⟨"b.wav", true, true, true⟩]⟩ "o"
        = _prepare_clips ⟨"s", true, [⟨"b.wav", true, true, true⟩, ⟨"a.mp3", true, true, true⟩,
          ⟨"sub", false, true, true⟩]⟩ "o" := by
  have h := prepare_clips_count_order_deterministic "s" "o"
    [⟨"b.wav", true, true, true⟩, ⟨"a.mp3", true, true, true⟩, ⟨"sub", false, true, true⟩]
    [⟨"a.mp3", true, true, true⟩, ⟨"sub", false, true, true⟩, ⟨"b.wav", true, true, true⟩]
    (by decide) (by decide)
  exact ⟨h.1, h.2.2.1 (by decide)⟩

/-- C7: a decode or write failure is a non-fatal per-file outcome:
`_ensure_processed_wav` returns `None` with the filesystem unchanged
(whenever the cache was not already fresh, so the transcode block
actually runs), and `_prepare_clips` on a directory containing a failing
entry equals `_prepare_clips` on the directory without it — the bad file
is skipped and every other file is still processed. -/
theorem ensure_failure_skipped_others_processed
    (transform : ℕ → Option ℕ) (now : ℕ) (st : CacheState)
    (dirPath outPath : String) (pre post : List DirEntry) (e : DirEntry) :
    ((st.dst = none ∨ ∀ m c, st.dst = some (m, c) → m < st.srcMtime) →
      transform st.srcContent = none →
      _ensure_processed_wav transform now st = ⟨none, st, true, false⟩)
    ∧ (((pre ++ e :: post).map DirEntry.name).Nodup →
      e.decodeOk = false →
      _prepare_clips ⟨dirPath, true, pre ++ e :: post⟩ outPath
        = _prepare_clips ⟨dirPath, true, pre ++ post⟩ outPath) := by
  constructor
  · intro hcase htr
    rcases hcase with hnone | hstale
    · unfold _ensure_processed_wav _transcode_write
      rw [hnone, htr]
    · rcases hdst : st.dst with _ | ⟨m, c⟩
      · unfold _ensure_processed_wav _transcode_write
        rw [hdst, htr]
      · have hlt := hstale m c hdst
        unfold _ensure_processed_wav _transcode_write
        rw [hdst, htr]
        simp [not_le.mpr hlt]
  · intro hnd hbad
    have hnd' : ((pre ++ post).map DirEntry.name).Nodup := by
      refine nodup_names_sublist ?_ hnd
      exact List.Sublist.append_left (List.sublist_cons_self e post) pre
    rw [prepare_clips_normal dirPath outPath _ hnd, prepare_clips_normal dirPath outPath _ hnd']
    have hv : validEntry e = false := by
      unfold validEntry
      rw [hbad]
      simp
    congr 2
    rw [List.filter_append, List.filter_append, List.filter_cons]
    simp [hv]

/-- Concrete instance: a failing transcode on a cold cache returns `None`
and changes nothing, and a directory `a.mp3, bad.mp3, c.ogg` where
`bad.mp3` fails to decode loads exactly the clips of `a.mp3, c.ogg`. -/
theorem ensure_failure_skipped_others_processed_witness :
    _ensure_processed_wav (fun _ => none) 5 ⟨3, 7, none⟩ = ⟨none, ⟨3, 7, none⟩, true, false⟩
    ∧ _prepare_clips ⟨"s", true, [⟨"a.mp3", true, true, true⟩, ⟨"bad.mp3", true, false, true⟩,
          ⟨"c.ogg", true, true, true⟩]⟩ "o"
        = _prepare_clips ⟨"s", true, [⟨"a.mp3", true, true, true⟩,
          ⟨"c.ogg", true, true, true⟩]⟩ "o" := by
  have h := ensure_failure_skipped_others_processed (fun _ => none) 5 ⟨3, 7, none⟩ "s" "o"
    [⟨"a.mp3", true, true, true⟩] [⟨"c.ogg", true, true, true⟩] ⟨"bad.mp3", true, false, true⟩
  exact ⟨h.1 (Or.inl rfl) rfl, h.2 (by decide) rfl⟩

/-- C3 counterexample: with key-repeat filtering enabled but sound muted,
an event whose distance from the last accepted timestamp is at least
`MIN_INTERVAL` is neither dispatched nor recorded — the handler returns
unchanged — contrary to the claim that such an event "is accepted, the
stored timestamp is updated to now, and playback is dispatched". -/
theorem on_press_accept_branch_counterexample :
    MIN_INTERVAL ≤ (1 : ℚ) - dictGet [] "a"
    ∧ on_press true ⟨false, [], []⟩ "a" 1 = (⟨false, [], []⟩, false) := by
  constructor
  · show MIN_INTERVAL ≤ (1 : ℚ) - 0
    norm_num [MIN_INTERVAL]
  · rfl

/-- C3 (amended): with key-repeat filtering enabled and sound enabled,
after an accepted first event for a key, a second event of the same type
for the same key within `MIN_INTERVAL` is rejected — no timestamp update,
no dispatch — and a second event at distance `≥ MIN_INTERVAL` is
accepted: the stored timestamp becomes its time and playback is
dispatched. Stated for press events over `_last_press` and release
events over `_last_release`. -/
theorem debounce_reject_accept (st : SysState) (k : String) (t₁ t₂ : ℚ)
    (hen : st.enabled = true)
    (haccP : MIN_INTERVAL ≤ t₁ - dictGet st.lastPress k)
    (haccR : MIN_INTERVAL ≤ t₁ - dictGet st.lastRelease k) :
    (on_press true st k t₁ = ({ st with lastPress := dictSet st.lastPress k t₁ }, true)
      ∧ (t₂ - t₁ < MIN_INTERVAL →
          on_press true ({ st with lastPress := dictSet st.lastPress k t₁ }) k t₂
            = ({ st with lastPress := dictSet st.lastPress k t₁ }, false))
      ∧ (MIN_INTERVAL ≤ t₂ - t₁ →
          on_press true ({ st with lastPress := dictSet st.lastPress k t₁ }) k t₂
            = ({ st with lastPress := dictSet (dictSet st.lastPress k t₁) k t₂ }, true)))
    ∧ (on_release true st k t₁ = ({ st with lastRelease := dictSet st.lastRelease k t₁ }, true)
      ∧ (t₂ - t₁ < MIN_INTERVAL →
          on_release true ({ st with lastRelease := dictSet st.lastRelease k t₁ }) k t₂
            = ({ st with lastRelease := dictSet st.lastRelease k t₁ }, false))
      ∧ (MIN_INTERVAL ≤ t₂ - t₁ →
          on_release true ({ st with lastRelease := dictSet st.lastRelease k t₁ }) k t₂
            = ({ st with lastRelease := dictSet (dictSet st.lastRelease k t₁) k t₂ }, true))) := by
  refine ⟨⟨?_, ?_, ?_⟩, ?_, ?_, ?_⟩
  · unfold on_press sound_enabled
    rw [hen]
    simp [not_lt.mpr haccP]
  · intro ht
    unfold on_press sound_enabled
    simp [hen, dictGet_dictSet_self, ht]
  · intro ht
    unfold on_press sound_enabled
    simp [hen, dictGet_dictSet_self, not_lt.mpr ht]
  · unfold on_release sound_enabled
    rw [hen]
    simp [not_lt.mpr haccR]
  · intro ht
    unfold on_release sound_enabled
    simp [hen, dictGet_dictSet_self, ht]
  · intro ht
    unfold on_release sound_enabled
    simp [hen, dictGet_dictSet_self, not_lt.mpr ht]

/-- Concrete instances of the debounce theorem: from an empty debounce
state, a press at time 1 is accepted and recorded; a repeat at 1.001 s is
rejected without a state change; a repeat at 2 s is accepted and
recorded; likewise for release events. -/
theorem debounce_reject_accept_witness :
    on_press true ⟨true, [], []⟩ "a" 1 = (⟨true, [("a", 1)], []⟩, true)
    ∧ on_press true ⟨true, [("a", 1)], []⟩ "a" 1.001 = (⟨true, [("a", 1)], []⟩, false)
    ∧ on_press true ⟨true, [("a", 1)], []⟩ "a" 2 = (⟨true, [("a", 2)], []⟩, true)
    ∧ on_release true ⟨true, [], []⟩ "a" 1 = (⟨true, [], [("a", 1)]⟩, true)
    ∧ on_release true ⟨true, [], [("a", 1)]⟩ "a" 1.001 = (⟨true, [], [("a", 1)]⟩, false) := by
  have h1 := debounce_reject_accept ⟨true, [], []⟩ "a" 1 1.001 rfl
    (by norm_num [MIN_INTERVAL, dictGet]) (by norm_num [MIN_INTERVAL, dictGet])
  have h2 := debounce_reject_accept ⟨true, [], []⟩ "a" 1 2 rfl
    (by norm_num [MIN_INTERVAL, dictGet]) (by norm_num [MIN_INTERVAL, dictGet])
  exact ⟨h1.1.1, h1.1.2.1 (by norm_num [MIN_INTERVAL]), h2.1.2.2 (by norm_num [MIN_INTERVAL]),
    h1.2.1, h1.2.2.1 (by norm_num [MIN_INTERVAL])⟩

/-- C4 counterexample: with key-repeat filtering enabled and sound muted,
a press event leaves the debounce dictionary untouched (it stays empty
instead of recording the event time): the mute gate runs before the
debouncer, contrary to the claimed order in which a muted event still
passes through, and updates, the debouncer. -/
theorem mute_gate_before_debouncer_counterexample :
    (on_press true ⟨false, [], []⟩ "a" 1).1.lastPress = []
    ∧ dictSet ([] : List (String × ℚ)) "a" 1 ≠ [] :=
  ⟨rfl, by simp [dictSet]⟩

/-- C4 (amended): the handlers apply the mute gate first — a muted event
returns immediately with no debouncer read or update and no dispatch —
then, when key-repeat filtering is enabled, the debounce check, and only
then the playback dispatch. -/
theorem event_order_mute_then_debounce_then_trigger
    (ir : Bool) (st : SysState) (k : String) (now : ℚ) :
    (st.enabled = false → on_press ir st k now = (st, false)
        ∧ on_release ir st k now = (st, false))
    ∧ (st.enabled = true → ir = true → now - dictGet st.lastPress k < MIN_INTERVAL →
        on_press ir st k now = (st, false))
    ∧ (st.enabled = true → ir = true → MIN_INTERVAL ≤ now - dictGet st.lastPress k →
        on_press ir st k now = ({ st with lastPress := dictSet st.lastPress k now }, true))
    ∧ (st.enabled = true → ir = true → now - dictGet st.lastRelease k < MIN_INTERVAL →
        on_release ir st k now = (st, false))
    ∧ (st.enabled = true → ir = true → MIN_INTERVAL ≤ now - dictGet st.lastRelease k →
        on_release ir st k now = ({ st with lastRelease := dictSet st.lastRelease k now }, true))
    ∧ (st.enabled = true → ir = false → on_press ir st k now = (st, true)
        ∧ on_release ir st k now = (st, true)) := by
  refine ⟨?_, ?_, ?_, ?_, ?_, ?_⟩
  · intro hen
    constructor <;> simp [on_press, on_release, sound_enabled, hen]
  · intro hen hir ht
    subst hir
    unfold on_press sound_enabled
    simp [hen, ht]
  · intro hen hir ht
    subst hir
    unfold on_press sound_enabled
    simp [hen, not_lt.mpr ht]
  · intro hen hir ht
    subst hir
    unfold on_release sound_enabled
    simp [hen, ht]
  · intro hen hir ht
    subst hir
    unfold on_release sound_enabled
    simp [hen, not_lt.mpr ht]
  · intro hen hir
    subst hir
    constructor <;> simp [on_press, on_release, sound_enabled, hen]

/-- Concrete instances of the ordering theorem: a muted press changes
nothing; an enabled press within 0.001 s of the stored timestamp is
rejected; an enabled press 1 s later is accepted and recorded; with
filtering disabled an enabled press dispatches unconditionally. -/
theorem event_order_mute_then_debounce_then_trigger_witness :
    on_press true ⟨false, [], []⟩ "a" 1 = (⟨false, [], []⟩, false)
    ∧ on_press true ⟨true, [("a", 1)], []⟩ "a" 1.001 = (⟨true, [("a", 1)], []⟩, false)
    ∧ on_press true ⟨true, [("a", 1)], []⟩ "a" 2 = (⟨true, [("a", 2)], []⟩, true)
    ∧ on_press false ⟨true, [], []⟩ "a" 1 = (⟨true, [], []⟩, true) := by
  refine ⟨(event_order_mute_then_debounce_then_trigger true ⟨false, [], []⟩ "a" 1).1 rfl |>.1,
    (event_order_mute_then_debounce_then_trigger true ⟨true, [("a", 1)], []⟩ "a" 1.001).2.1
      rfl rfl (by norm_num [MIN_INTERVAL, dictGet]),
    (event_order_mute_then_debounce_then_trigger true ⟨true, [("a", 1)], []⟩ "a" 2).2.2.1
      rfl rfl (by norm_num [MIN_INTERVAL, dictGet]),
    ((event_order_mute_then_debounce_then_trigger false ⟨true, [], []⟩ "a" 1).2.2.2.2.2
      rfl rfl).1⟩

/-- C8: after `set_sound_enabled false` completes, both event handlers
return without dispatching playback and without touching any state, for
either value of the key-repeat flag; after `set_sound_enabled true`
completes, events dispatch again in the source configuration
(`IGNORE_KEY_REPEAT = false`). -/
theorem mute_gate_blocks_and_restores (ir : Bool) (st : SysState) (k : String) (now : ℚ) :
    on_press ir (set_sound_enabled st false) k now = (set_sound_enabled st false, false)
    ∧ on_release ir (set_sound_enabled st false) k now = (set_sound_enabled st false, false)
    ∧ on_press IGNORE_KEY_REPEAT (set_sound_enabled st true) k now
        = (set_sound_enabled st true, true)
    ∧ on_release IGNORE_KEY_REPEAT (set_sound_enabled st true) k now
        = (set_sound_enabled st true, true)
    ∧ sound_enabled (set_sound_enabled st false) = false
    ∧ sound_enabled (set_sound_enabled st true) = true := by
  refine ⟨?_, ?_, ?_, ?_, rfl, rfl⟩ <;>
    simp [on_press, on_release, set_sound_enabled, sound_enabled, IGNORE_KEY_REPEAT]

/-- C9 counterexample: an environment assigning every variable (so in
particular any candidate gain or key-repeat key) still yields the same
gain and the same key-repeat setting as the empty environment, with
their hard-coded values `0` dB and `false` — no environment key reaches
`GAIN_DB` or `IGNORE_KEY_REPEAT`, contrary to the claim that they are
configurable without modifying the source. -/
theorem gain_repeat_env_counterexample :
    (configOfEnv (fun _ => some "6")).gainDb = (configOfEnv (fun _ => none)).gainDb
    ∧ (configOfEnv (fun _ => some "1")).ignoreKeyRepeat
        = (configOfEnv (fun _ => none)).ignoreKeyRepeat
    ∧ (configOfEnv (fun _ => some "6")).gainDb = 0
    ∧ (configOfEnv (fun _ => some "1")).ignoreKeyRepeat = false :=
  ⟨rfl, rfl, rfl, rfl⟩

/-- C9 (amended): the gain adjustment and the key-repeat-ignore toggle
are source-level constants with the documented defaults (0 dB, disabled),
identical under every environment; by contrast the output channel count
genuinely is environment-configurable (`KLACK_CHANNELS`). -/
theorem gain_repeat_are_source_constants (env : Env) :
    (configOfEnv env).gainDb = GAIN_DB
    ∧ (configOfEnv env).ignoreKeyRepeat = IGNORE_KEY_REPEAT
    ∧ GAIN_DB = 0
    ∧ IGNORE_KEY_REPEAT = false
    ∧ (configOfEnv (fun _ => some "1")).mixerChannels = 1
    ∧ (configOfEnv (fun _ => none)).mixerChannels = 2 := by
  refine ⟨rfl, rfl, rfl, rfl, ?_, ?_⟩
  · decide
  · decide

end Klack
